import Mathlib

/-!
Verification of the storage core of the hamsterdb-era upscaledb repository
(src/db.c, src/extkeys.c, src/config.h) against its natural-language
specification.  The C code is shallowly embedded: every embedded definition
mirrors the control flow of the corresponding C function; machine integers
are modelled as `Nat` with explicit `% 2^32` where the 32-bit unsigned
arithmetic of `ham_size_t` can wrap.  Values that live in headers that are
not part of the repository snapshot (`ham/hamsterdb.h`, `ham/types.h`,
`page.h`, `cache.h`, `extkeys.h`) are modelled from the specification; each
such definition carries a doc comment saying so.
-/

set_option autoImplicit false

set_option maxRecDepth 8000

namespace Upscaledb

/-- Modelled from the spec: `ham/hamsterdb.h` is not under src/.  The spec
lists a closed set of error codes with `SUCCESS` as the success value; the
embedding only relies on the codes being pairwise distinct and on
`HAM_SUCCESS = 0` (C code tests statuses with `if (st)`).  The numeric
values follow the hamsterdb convention of negative error codes. -/
def HAM_SUCCESS : Int := 0

/-- Modelled from the spec: out-of-memory error code (see `HAM_SUCCESS`). -/
def HAM_OUT_OF_MEMORY : Int := -12

/-- Modelled from the spec: lookup-miss error code (see `HAM_SUCCESS`). -/
def HAM_KEY_NOT_FOUND : Int := -11

/-- Modelled from the spec: I/O error code (see `HAM_SUCCESS`). -/
def HAM_IO_ERROR : Int := -18

/-- Modelled from the spec: cache-full error code (see `HAM_SUCCESS`). -/
def HAM_CACHE_FULL : Int := -56

/-- Modelled from the spec: the sentinel returned by a user prefix-compare
function to request a full-key comparison.  The spec lists it separately
from the comparison results -1/0/+1 and from the error codes ("plus the
sentinel PREFIX_REQUEST_FULLKEY"), so it is distinct from all of them. -/
def HAM_PREFIX_REQUEST_FULLKEY : Int := -57

/-- `2^32`, the modulus of the 32-bit unsigned `ham_size_t` arithmetic. -/
def U32MOD : Nat := 4294967296

/-!  ## Extended-key cache (src/extkeys.c)  -/

/-- One entry of the extended-key cache: `extkey_t` from extkeys.h holds
the blob id, the byte count and the key bytes, chained per bucket.
The chain link is represented by the position in the bucket list. -/
structure ExtEntry where
  blobid : Nat
  size : Nat
  data : List Nat
  deriving Repr, DecidableEq

/-- The extended-key cache: `bucketsize` buckets, each a chain of entries
(front of the list = head of the C singly-linked chain), plus the running
byte count `usedsize` (`ham_size_t`, 32-bit). -/
structure ExtkeyCache where
  bucketsize : Nat
  buckets : List (List ExtEntry)
  usedsize : Nat
  deriving Repr, DecidableEq

/-- `EXTKEY_CACHE_BUCKETSIZE` from extkeys.c. -/
def EXTKEY_CACHE_BUCKETSIZE : Nat := 128

/-- `extkey_cache_new` (extkeys.c): a zeroed cache with
`EXTKEY_CACHE_BUCKETSIZE` empty buckets.  Allocation failure is handled by
the callers of the embedding (allocation oracles); this is the successfully
allocated cache. -/
def extkey_cache_new : ExtkeyCache :=
  { bucketsize := EXTKEY_CACHE_BUCKETSIZE
    buckets := List.replicate EXTKEY_CACHE_BUCKETSIZE []
    usedsize := 0 }

/-- `my_calc_hash` (extkeys.c): bucket selection `blobid & (bucketsize-1)`,
with a guard for a zero bucket count.  (The C macro reads the bucket count
through an accessor macro from a header that is not under src/; the spec
fixes bucket selection to `blob_id & (bucketsize - 1)` over the extkey
cache's own bucketsize.) -/
def my_calc_hash (bucketsize blobid : Nat) : Nat :=
  if bucketsize = 0 then 0 else blobid &&& (bucketsize - 1)

/-- The bucket chain selected for `blobid` (C: `extkey_cache_get_bucket`). -/
def bucketOf (c : ExtkeyCache) (blobid : Nat) : List ExtEntry :=
  c.buckets.getD (my_calc_hash c.bucketsize blobid) []

/-- `extkey_cache_insert` (extkeys.c).  `pageUsed` is
`cache_get_usedsize(db_get_cache(db))` (the page cache's used byte count)
and `cachesize` is `cache_get_cachesize(...)`; both are inputs read from
the DB's page cache.  `allocOk` is the outcome of `ham_mem_alloc` for the
new entry.  Returns the C status and the cache state after the call; the
capacity guard and the `usedsize` update use 32-bit unsigned arithmetic.
`memcpy(extkey_get_data(e), data, size)` copies exactly `size` bytes. -/
def extkey_cache_insert (pageUsed cachesize : Nat) (allocOk : Bool)
    (c : ExtkeyCache) (blobid size : Nat) (data : List Nat) :
    Int × ExtkeyCache :=
  if (pageUsed + c.usedsize + size) % U32MOD > cachesize then
    (HAM_CACHE_FULL, c)
  else if !allocOk then
    (HAM_OUT_OF_MEMORY, c)
  else
    (HAM_SUCCESS,
      { c with
          buckets := c.buckets.set (my_calc_hash c.bucketsize blobid)
            ((⟨blobid, size, data.take size⟩ : ExtEntry) ::
              c.buckets.getD (my_calc_hash c.bucketsize blobid) [])
          usedsize := (c.usedsize + size) % U32MOD })

/-- The chain walk of `extkey_cache_remove`: find the first entry with the
given blob id, unlink it, keep the rest of the chain in order. -/
def chainRemove (blobid : Nat) : List ExtEntry → Option (ExtEntry × List ExtEntry)
  | [] => none
  | e :: rest =>
    if e.blobid = blobid then some (e, rest)
    else
      match chainRemove blobid rest with
      | none => none
      | some (x, rest') => some (x, e :: rest')

/-- `extkey_cache_remove` (extkeys.c): unlink the entry with the given blob
id from its bucket and subtract its size from `usedsize` (32-bit unsigned
subtraction); `HAM_KEY_NOT_FOUND` if no entry has that blob id. -/
def extkey_cache_remove (c : ExtkeyCache) (blobid : Nat) : Int × ExtkeyCache :=
  match chainRemove blobid
      (c.buckets.getD (my_calc_hash c.bucketsize blobid) []) with
  | none => (HAM_KEY_NOT_FOUND, c)
  | some (e, chain') =>
    (HAM_SUCCESS,
      { c with
          buckets := c.buckets.set (my_calc_hash c.bucketsize blobid) chain'
          usedsize := (c.usedsize + (U32MOD - e.size % U32MOD)) % U32MOD })

/-- The chain walk of `extkey_cache_fetch`: first entry with the blob id. -/
def chainFind (blobid : Nat) : List ExtEntry → Option ExtEntry
  | [] => none
  | e :: rest => if e.blobid = blobid then some e else chainFind blobid rest

/-- `extkey_cache_fetch` (extkeys.c): look the blob id up in its bucket;
on a hit return the stored size and bytes through the out-parameters,
otherwise `HAM_KEY_NOT_FOUND`. -/
def extkey_cache_fetch (c : ExtkeyCache) (blobid : Nat) :
    Int × Option (Nat × List Nat) :=
  match chainFind blobid (bucketOf c blobid) with
  | none => (HAM_KEY_NOT_FOUND, none)
  | some e => (HAM_SUCCESS, some (e.size, e.data))

example :
    (extkey_cache_insert 0 1000 true extkey_cache_new 5 3 [1, 2, 3]).1 =
      HAM_SUCCESS := by decide

example :
    (extkey_cache_fetch
      (extkey_cache_insert 0 1000 true extkey_cache_new 5 3 [1, 2, 3]).2
      5) = (HAM_SUCCESS, some (3, [1, 2, 3])) := by decide

example :
    (extkey_cache_insert 0 10 true extkey_cache_new 5 30 []).1 =
      HAM_CACHE_FULL := by decide

/-- If the chain scan finds no entry for the blob id, neither does the
unlinking scan of `extkey_cache_remove`. -/
theorem chainRemove_eq_none (blobid : Nat) (l : List ExtEntry)
    (h : chainFind blobid l = none) : chainRemove blobid l = none := by
  induction l with
  | nil => rfl
  | cons e rest ih =>
    unfold chainFind at h
    unfold chainRemove
    by_cases he : e.blobid = blobid
    · simp [he] at h
    · simp [he] at h ⊢
      rw [ih h]

/-- C4: `extkey_cache_insert(blob_id, size, bytes)` returns `CACHE_FULL`
exactly when `page_cache.usedsize + extkey_cache.usedsize + size >
cachesize`; below that bound it never returns `CACHE_FULL` (it either
succeeds or fails with `OUT_OF_MEMORY` from the entry allocation).  The
hypothesis rules out wrap-around of the 32-bit sum, which cannot occur for
the 32-bit quantities the C code reads. -/
theorem extkey_cache_insert_cache_full_iff
    (pageUsed cachesize : Nat) (allocOk : Bool) (c : ExtkeyCache)
    (blobid size : Nat) (data : List Nat)
    (h : pageUsed + c.usedsize + size < U32MOD) :
    ((extkey_cache_insert pageUsed cachesize allocOk c blobid size data).1 =
        HAM_CACHE_FULL ↔
      pageUsed + c.usedsize + size > cachesize) := by
  unfold extkey_cache_insert
  rw [Nat.mod_eq_of_lt h]
  by_cases hgt : pageUsed + c.usedsize + size > cachesize
  · simp [hgt]
  · simp only [hgt, if_false, iff_false]
    cases allocOk <;> simp [HAM_OUT_OF_MEMORY, HAM_CACHE_FULL, HAM_SUCCESS]

/-- Witness for C4 at a concrete overfull insert. -/
theorem extkey_cache_insert_cache_full_iff_witness :
    ((extkey_cache_insert 0 10 true extkey_cache_new 5 30 []).1 =
        HAM_CACHE_FULL ↔
      0 + extkey_cache_new.usedsize + 30 > 10) :=
  extkey_cache_insert_cache_full_iff 0 10 true extkey_cache_new 5 30 []
    (by decide)

/-- C10: extkey-cache operations are atomic on error.  A failing
`extkey_cache_insert` (whether `CACHE_FULL` from the capacity guard or
`OUT_OF_MEMORY` from the entry allocation) returns with every bucket and
`usedsize` unchanged, and `extkey_cache_remove` of an absent blob id
returns `KEY_NOT_FOUND` with the cache unchanged. -/
theorem extkey_cache_atomic_on_error
    (pageUsed cachesize : Nat) (allocOk : Bool) (c : ExtkeyCache)
    (blobid size : Nat) (data : List Nat) :
    ((extkey_cache_insert pageUsed cachesize allocOk c blobid size data).1 ≠
        HAM_SUCCESS →
      (extkey_cache_insert pageUsed cachesize allocOk c blobid size data).2 =
        c) ∧
    (chainFind blobid (bucketOf c blobid) = none →
      extkey_cache_remove c blobid = (HAM_KEY_NOT_FOUND, c)) := by
  constructor
  · intro hfail
    unfold extkey_cache_insert at hfail ⊢
    by_cases hfull :
        (pageUsed + c.usedsize + size) % U32MOD > cachesize
    · simp [hfull]
    · simp only [hfull, if_false] at hfail ⊢
      cases allocOk
      · simp
      · simp at hfail
  · intro habs
    unfold bucketOf at habs
    have h2 := chainRemove_eq_none blobid _ habs
    simp only [extkey_cache_remove]
    rw [h2]

/-- Witness for C10: a concrete failing insert and a concrete remove of an
absent blob id both leave the fresh cache unchanged. -/
theorem extkey_cache_atomic_on_error_witness :
    (extkey_cache_insert 0 10 true extkey_cache_new 5 30 []).2 =
        extkey_cache_new ∧
    extkey_cache_remove extkey_cache_new 7 =
        (HAM_KEY_NOT_FOUND, extkey_cache_new) :=
  ⟨(extkey_cache_atomic_on_error 0 10 true extkey_cache_new 5 30 []).1
      (by decide),
   (extkey_cache_atomic_on_error 0 10 true extkey_cache_new 5 30 []).2
      (by decide)⟩

/-!  ### Operation sequences over the extkey cache (C5, C6)  -/

/-- Byte count of one bucket chain. -/
def chainSum (ch : List ExtEntry) : Nat := (ch.map ExtEntry.size).sum

/-- Total byte count of the entries stored in all buckets. -/
def sumSizes (c : ExtkeyCache) : Nat := (c.buckets.map chainSum).sum

/-- One call into the extkey cache: an `extkey_cache_insert` (with the page
cache's usedsize, the cachesize and the allocation outcome observed at that
call) or an `extkey_cache_remove`. -/
inductive ExtOp where
  | ins (pageUsed cachesize : Nat) (allocOk : Bool) (blobid size : Nat)
      (data : List Nat)
  | rem (blobid : Nat)
  deriving Repr, DecidableEq

/-- The blob id an operation addresses. -/
def ExtOp.opBlobid : ExtOp → Nat
  | .ins _ _ _ blobid _ _ => blobid
  | .rem blobid => blobid

/-- Apply one call to the cache (the returned status is dropped; a failing
call leaves the cache unchanged, as proved in `extkey_cache_atomic_on_error`
above for the same definitions). -/
def extStep (c : ExtkeyCache) : ExtOp → ExtkeyCache
  | .ins pageUsed cachesize allocOk blobid size data =>
    (extkey_cache_insert pageUsed cachesize allocOk c blobid size data).2
  | .rem blobid => (extkey_cache_remove c blobid).2

/-- Apply a sequence of calls, oldest first. -/
def extRun (c : ExtkeyCache) : List ExtOp → ExtkeyCache
  | [] => c
  | op :: ops => extRun (extStep c op) ops

/-- A call is within the 32-bit range: at an insert, the true (unwrapped)
value of the capacity sum the C code computes in 32-bit arithmetic, and the
cachesize, fit in 32 bits.  This holds for every call the C program can
make, where all three summands are in-range `ham_size_t` values. -/
def okOpB (c : ExtkeyCache) : ExtOp → Bool
  | .ins pageUsed cachesize _ _ size _ =>
    decide (pageUsed + c.usedsize + size < U32MOD) &&
      decide (cachesize < U32MOD)
  | .rem _ => true

/-- All calls of the sequence are within the 32-bit range. -/
def okRunB (c : ExtkeyCache) : List ExtOp → Bool
  | [] => true
  | op :: ops => okOpB c op && okRunB (extStep c op) ops

/-- The structural and accounting invariant of the extkey cache. -/
def ExtInv (c : ExtkeyCache) : Prop :=
  c.usedsize = sumSizes c ∧ sumSizes c < U32MOD ∧
    c.buckets.length = c.bucketsize ∧ 0 < c.bucketsize

/-- The selected bucket index is in range. -/
theorem my_calc_hash_lt (bucketsize blobid : Nat) (h : 0 < bucketsize) :
    my_calc_hash bucketsize blobid < bucketsize := by
  unfold my_calc_hash
  rw [if_neg (Nat.pos_iff_ne_zero.mp h)]
  have := Nat.and_le_right (n := blobid) (m := bucketsize - 1)
  omega

/-- Replacing bucket `i` changes the total sum by the difference of the
chain values at `i`. -/
theorem sum_map_set {α : Type} (f : List α → Nat) (l : List (List α))
    (i : Nat) (x : List α) (hi : i < l.length) :
    ((l.set i x).map f).sum + f (l.getD i []) = (l.map f).sum + f x := by
  induction l generalizing i with
  | nil => simp at hi
  | cons y ys ih =>
    cases i with
    | zero => simp [List.set, List.getD]; omega
    | succ j =>
      simp only [List.set, List.map_cons, List.sum_cons, List.getD_cons_succ]
      have hj : j < ys.length := by simpa using hi
      have := ih j hj
      omega

/-- The chain value at a valid index is at most the total sum. -/
theorem getD_le_sum {α : Type} (f : List α → Nat) (l : List (List α))
    (i : Nat) (hi : i < l.length) : f (l.getD i []) ≤ (l.map f).sum := by
  induction l generalizing i with
  | nil => simp at hi
  | cons y ys ih =>
    cases i with
    | zero => simp [List.getD]
    | succ j =>
      have hj : j < ys.length := by simpa using hi
      simp only [List.getD_cons_succ, List.map_cons, List.sum_cons]
      have := ih j hj
      omega

/-- The entry unlinked by the remove scan carries the requested blob id,
and unlinking it splits the chain's byte count. -/
theorem chainRemove_spec (blobid : Nat) (l ch : List ExtEntry) (e : ExtEntry)
    (h : chainRemove blobid l = some (e, ch)) :
    e.blobid = blobid ∧ chainSum l = e.size + chainSum ch := by
  induction l generalizing ch with
  | nil => simp [chainRemove] at h
  | cons x rest ih =>
    unfold chainRemove at h
    by_cases hx : x.blobid = blobid
    · rw [if_pos hx] at h
      cases h
      exact ⟨hx, by simp [chainSum]⟩
    · rw [if_neg hx] at h
      cases hrec : chainRemove blobid rest with
      | none => rw [hrec] at h; cases h
      | some p =>
        rw [hrec] at h
        cases p with
        | mk x' rest' =>
          cases h
          have := ih rest' hrec
          refine ⟨this.1, ?_⟩
          simp [chainSum] at this ⊢
          omega

/-- Chain byte count of a freshly prepended entry. -/
theorem chainSum_cons (e : ExtEntry) (ch : List ExtEntry) :
    chainSum (e :: ch) = e.size + chainSum ch := by
  simp [chainSum]

/-- One in-range call preserves the accounting invariant. -/
theorem extStep_inv (c : ExtkeyCache) (op : ExtOp) (hinv : ExtInv c)
    (hok : okOpB c op = true) : ExtInv (extStep c op) := by
  obtain ⟨hused, hlt, hlen, hpos⟩ := hinv
  unfold sumSizes at hused hlt
  cases op with
  | ins pageUsed cachesize allocOk blobid size data =>
    simp only [okOpB, Bool.and_eq_true, decide_eq_true_eq] at hok
    obtain ⟨hsum, hcs⟩ := hok
    by_cases hfull : (pageUsed + c.usedsize + size) % U32MOD > cachesize
    · have hstep :
          extStep c (ExtOp.ins pageUsed cachesize allocOk blobid size data) =
            c := by
        simp only [extStep]
        unfold extkey_cache_insert
        rw [if_pos hfull]
      rw [hstep]
      exact ⟨hused, hlt, hlen, hpos⟩
    · cases allocOk with
      | false =>
        have hstep :
            extStep c (ExtOp.ins pageUsed cachesize false blobid size data) =
              c := by
          simp only [extStep]
          unfold extkey_cache_insert
          rw [if_neg hfull]
          rfl
        rw [hstep]
        exact ⟨hused, hlt, hlen, hpos⟩
      | true =>
        have hstep :
            extStep c (ExtOp.ins pageUsed cachesize true blobid size data) =
              { bucketsize := c.bucketsize
                buckets := c.buckets.set (my_calc_hash c.bucketsize blobid)
                  ((⟨blobid, size, data.take size⟩ : ExtEntry) ::
                    c.buckets.getD (my_calc_hash c.bucketsize blobid) [])
                usedsize := (c.usedsize + size) % U32MOD } := by
          simp only [extStep]
          unfold extkey_cache_insert
          rw [if_neg hfull]
          rfl
        rw [hstep]
        have hh : my_calc_hash c.bucketsize blobid < c.buckets.length := by
          rw [hlen]; exact my_calc_hash_lt _ _ hpos
        have hset := sum_map_set chainSum c.buckets
          (my_calc_hash c.bucketsize blobid)
          ((⟨blobid, size, data.take size⟩ : ExtEntry) ::
            c.buckets.getD (my_calc_hash c.bucketsize blobid) []) hh
        rw [chainSum_cons] at hset
        have hproj : (⟨blobid, size, data.take size⟩ : ExtEntry).size =
            size := rfl
        rw [hproj] at hset
        rw [Nat.mod_eq_of_lt hsum] at hfull
        refine ⟨?_, ?_, ?_, hpos⟩
        · show (c.usedsize + size) % U32MOD =
            (List.map chainSum (c.buckets.set (my_calc_hash c.bucketsize
              blobid) ((⟨blobid, size, data.take size⟩ : ExtEntry) ::
                c.buckets.getD (my_calc_hash c.bucketsize blobid) []))).sum
          conv_lhs => rw [Nat.mod_eq_of_lt
            (show c.usedsize + size < U32MOD by omega)]
          omega
        · show (List.map chainSum (c.buckets.set (my_calc_hash c.bucketsize
              blobid) ((⟨blobid, size, data.take size⟩ : ExtEntry) ::
                c.buckets.getD (my_calc_hash c.bucketsize blobid) []))).sum <
              U32MOD
          omega
        · show (c.buckets.set _ _).length = c.bucketsize
          rw [List.length_set]; exact hlen
  | rem blobid =>
    cases hrem : chainRemove blobid
        (c.buckets.getD (my_calc_hash c.bucketsize blobid) []) with
    | none =>
      have hstep : extStep c (ExtOp.rem blobid) = c := by
        simp only [extStep]
        unfold extkey_cache_remove
        rw [hrem]
      rw [hstep]
      exact ⟨hused, hlt, hlen, hpos⟩
    | some p =>
      cases p with
      | mk e ch =>
        have hstep : extStep c (ExtOp.rem blobid) =
            { bucketsize := c.bucketsize
              buckets := c.buckets.set (my_calc_hash c.bucketsize blobid) ch
              usedsize :=
                (c.usedsize + (U32MOD - e.size % U32MOD)) % U32MOD } := by
          simp only [extStep]
          unfold extkey_cache_remove
          rw [hrem]
        rw [hstep]
        have hspec := chainRemove_spec _ _ _ _ hrem
        have hh : my_calc_hash c.bucketsize blobid < c.buckets.length := by
          rw [hlen]; exact my_calc_hash_lt _ _ hpos
        have hset := sum_map_set chainSum c.buckets
          (my_calc_hash c.bucketsize blobid) ch hh
        have hchain : chainSum
            (c.buckets.getD (my_calc_hash c.bucketsize blobid) []) ≤
              (List.map chainSum c.buckets).sum :=
          getD_le_sum chainSum c.buckets _ hh
        have hesize : e.size ≤ c.usedsize := by omega
        have hemod : e.size % U32MOD = e.size := Nat.mod_eq_of_lt (by omega)
        have hval : (c.usedsize + (U32MOD - e.size % U32MOD)) % U32MOD =
            c.usedsize - e.size := by
          rw [hemod]
          have heq : c.usedsize + (U32MOD - e.size) =
              (c.usedsize - e.size) + U32MOD := by omega
          rw [heq, Nat.add_mod_right]
          exact Nat.mod_eq_of_lt (by omega)
        refine ⟨?_, ?_, ?_, hpos⟩
        · show (c.usedsize + (U32MOD - e.size % U32MOD)) % U32MOD =
            (List.map chainSum
              (c.buckets.set (my_calc_hash c.bucketsize blobid) ch)).sum
          rw [hval]
          omega
        · show (List.map chainSum
              (c.buckets.set (my_calc_hash c.bucketsize blobid) ch)).sum <
              U32MOD
          omega
        · show (c.buckets.set _ _).length = c.bucketsize
          rw [List.length_set]; exact hlen

/-- An in-range call sequence preserves the accounting invariant. -/
theorem extRun_inv (ops : List ExtOp) (c : ExtkeyCache) (hinv : ExtInv c)
    (hok : okRunB c ops = true) : ExtInv (extRun c ops) := by
  induction ops generalizing c with
  | nil => exact hinv
  | cons op ops ih =>
    simp only [okRunB, Bool.and_eq_true] at hok
    exact ih _ (extStep_inv c op hinv hok.1) hok.2

/-- The fresh cache satisfies the invariant. -/
theorem extInv_new : ExtInv extkey_cache_new := by
  refine ⟨?_, ?_, ?_, ?_⟩ <;> decide

/-- C6: after every finite sequence of in-range `extkey_cache_insert` and
`extkey_cache_remove` calls starting from a fresh extkey cache, the cache's
`usedsize` equals the sum of the sizes of the entries currently stored in
its buckets. -/
theorem extkey_cache_usedsize_invariant (ops : List ExtOp)
    (hok : okRunB extkey_cache_new ops = true) :
    (extRun extkey_cache_new ops).usedsize =
      sumSizes (extRun extkey_cache_new ops) :=
  (extRun_inv ops extkey_cache_new extInv_new hok).1

/-- Witness for C6 on a concrete sequence: two inserts and a remove. -/
theorem extkey_cache_usedsize_invariant_witness :
    (extRun extkey_cache_new
        [ExtOp.ins 0 1000 true 5 3 [1, 2, 3],
         ExtOp.ins 0 1000 true 6 2 [9, 9],
         ExtOp.rem 5]).usedsize =
      sumSizes (extRun extkey_cache_new
        [ExtOp.ins 0 1000 true 5 3 [1, 2, 3],
         ExtOp.ins 0 1000 true 6 2 [9, 9],
         ExtOp.rem 5]) :=
  extkey_cache_usedsize_invariant _ (by decide)

/-- Reading back the replaced bucket. -/
theorem getD_set_eq {α : Type} (l : List α) (i : Nat) (x d : α)
    (hi : i < l.length) : (l.set i x).getD i d = x := by
  induction l generalizing i with
  | nil => simp at hi
  | cons y ys ih =>
    cases i with
    | zero => rfl
    | succ j => exact ih j (by simpa using hi)

/-- Reading an untouched bucket. -/
theorem getD_set_ne {α : Type} (l : List α) (i j : Nat) (x d : α)
    (h : i ≠ j) : (l.set i x).getD j d = l.getD j d := by
  induction l generalizing i j with
  | nil => rfl
  | cons y ys ih =>
    cases i with
    | zero =>
      cases j with
      | zero => exact absurd rfl h
      | succ j' => rfl
    | succ i' =>
      cases j with
      | zero => rfl
      | succ j' => exact ih i' j' (fun hc => h (by rw [hc]))

/-- Unlinking an entry with a different blob id does not change what the
fetch scan finds for `blobid`. -/
theorem chainFind_chainRemove_ne (blobid other : Nat) (hne : other ≠ blobid)
    (l ch : List ExtEntry) (e : ExtEntry)
    (hrem : chainRemove other l = some (e, ch)) :
    chainFind blobid ch = chainFind blobid l := by
  induction l generalizing ch with
  | nil => simp [chainRemove] at hrem
  | cons x rest ih =>
    unfold chainRemove at hrem
    by_cases hx : x.blobid = other
    · rw [if_pos hx] at hrem
      cases hrem
      show chainFind blobid rest = chainFind blobid (e :: rest)
      have hcons : chainFind blobid (e :: rest) =
          if e.blobid = blobid then some e else chainFind blobid rest := rfl
      rw [hcons, if_neg (by rw [hx]; exact hne)]
    · rw [if_neg hx] at hrem
      cases hrec : chainRemove other rest with
      | none => rw [hrec] at hrem; cases hrem
      | some p =>
        rw [hrec] at hrem
        cases p with
        | mk x' rest' =>
          cases hrem
          unfold chainFind
          rw [ih rest' hrec]

/-- After a successful insert of `blobid`, the fetch scan of its bucket
finds the freshly inserted entry, and this persists under every later call
that addresses a different blob id. -/
theorem extRun_preserves_entry (blobid : Nat) (e : ExtEntry)
    (ops : List ExtOp) (c : ExtkeyCache)
    (hstruct : c.buckets.length = c.bucketsize ∧ 0 < c.bucketsize)
    (hfind : chainFind blobid (bucketOf c blobid) = some e)
    (hops : ∀ op ∈ ops, ExtOp.opBlobid op ≠ blobid) :
    chainFind blobid (bucketOf (extRun c ops) blobid) = some e := by
  induction ops generalizing c with
  | nil => exact hfind
  | cons op ops ih =>
    have hop : ExtOp.opBlobid op ≠ blobid := hops op (by simp)
    have hops' : ∀ op' ∈ ops, ExtOp.opBlobid op' ≠ blobid := by
      intro op' hmem
      exact hops op' (by simp [hmem])
    have hpos' : 0 < (extStep c op).bucketsize := by
      cases op with
      | ins pageUsed cachesize allocOk other size data =>
        simp only [extStep, extkey_cache_insert]
        by_cases h1 : (pageUsed + c.usedsize + size) % U32MOD > cachesize
        · rw [if_pos h1]; exact hstruct.2
        · rw [if_neg h1]
          cases allocOk with
          | false => exact hstruct.2
          | true => exact hstruct.2
      | rem other =>
        simp only [extStep, extkey_cache_remove]
        cases chainRemove other
            (c.buckets.getD (my_calc_hash c.bucketsize other) []) with
        | none => exact hstruct.2
        | some p => exact hstruct.2
    have hlen' : (extStep c op).buckets.length = (extStep c op).bucketsize := by
      cases op with
      | ins pageUsed cachesize allocOk other size data =>
        simp only [extStep, extkey_cache_insert]
        by_cases h1 : (pageUsed + c.usedsize + size) % U32MOD > cachesize
        · rw [if_pos h1]; exact hstruct.1
        · rw [if_neg h1]
          cases allocOk with
          | false => exact hstruct.1
          | true => show (c.buckets.set _ _).length = c.bucketsize
                    rw [List.length_set]; exact hstruct.1
      | rem other =>
        simp only [extStep, extkey_cache_remove]
        cases chainRemove other
            (c.buckets.getD (my_calc_hash c.bucketsize other) []) with
        | none => exact hstruct.1
        | some p =>
          show (c.buckets.set _ _).length = c.bucketsize
          rw [List.length_set]; exact hstruct.1
    have hfind' : chainFind blobid (bucketOf (extStep c op) blobid) =
        some e := by
      cases op with
      | ins pageUsed cachesize allocOk other size data =>
        have hother : other ≠ blobid := hop
        simp only [extStep, extkey_cache_insert]
        by_cases h1 : (pageUsed + c.usedsize + size) % U32MOD > cachesize
        · rw [if_pos h1]; exact hfind
        · rw [if_neg h1]
          cases allocOk with
          | false => exact hfind
          | true =>
            show chainFind blobid
              ((c.buckets.set (my_calc_hash c.bucketsize other) _).getD
                (my_calc_hash c.bucketsize blobid) []) = some e
            by_cases hsame :
                my_calc_hash c.bucketsize other =
                  my_calc_hash c.bucketsize blobid
            · rw [hsame, getD_set_eq _ _ _ _
                (by rw [hstruct.1]
                    exact my_calc_hash_lt _ _ hstruct.2)]
              rw [← hsame]
              unfold chainFind
              rw [if_neg (by exact hother)]
              rw [hsame]
              exact hfind
            · rw [getD_set_ne _ _ _ _ _ hsame]
              exact hfind
      | rem other =>
        have hother : other ≠ blobid := hop
        simp only [extStep, extkey_cache_remove]
        cases hrem : chainRemove other
            (c.buckets.getD (my_calc_hash c.bucketsize other) []) with
        | none => exact hfind
        | some p =>
          cases p with
          | mk x ch =>
            show chainFind blobid
              ((c.buckets.set (my_calc_hash c.bucketsize other) ch).getD
                (my_calc_hash c.bucketsize blobid) []) = some e
            by_cases hsame :
                my_calc_hash c.bucketsize other =
                  my_calc_hash c.bucketsize blobid
            · rw [hsame, getD_set_eq _ _ _ _
                (by rw [hstruct.1]
                    exact my_calc_hash_lt _ _ hstruct.2)]
              rw [chainFind_chainRemove_ne blobid other hother _ ch x
                (by rw [hsame] at hrem; exact hrem)]
              exact hfind
            · rw [getD_set_ne _ _ _ _ _ hsame]
              exact hfind
    exact ih (extStep c op) ⟨hlen', hpos'⟩ hfind' hops'

/-- C5: after a successful `extkey_cache_insert(blob_id, size, bytes)`, and
any later inserts/removes that address other blob ids (re-inserting a live
blob id is excluded by the cache's own debug assertion), a fetch of
`blob_id` succeeds and returns exactly the inserted size and bytes —
insert and fetch select the same bucket `blob_id & (bucketsize - 1)`.
A fetch of a blob id with no live entry returns `KEY_NOT_FOUND`. -/
theorem extkey_cache_insert_fetch_roundtrip (pageUsed cachesize : Nat)
    (allocOk : Bool) (c : ExtkeyCache) (blobid size : Nat) (data : List Nat)
    (ops : List ExtOp)
    (hstruct : c.buckets.length = c.bucketsize ∧ 0 < c.bucketsize)
    (hlen : data.length = size)
    (hins : (extkey_cache_insert pageUsed cachesize allocOk c blobid size
      data).1 = HAM_SUCCESS)
    (hops : ∀ op ∈ ops, ExtOp.opBlobid op ≠ blobid) :
    extkey_cache_fetch
        (extRun (extkey_cache_insert pageUsed cachesize allocOk c blobid size
          data).2 ops) blobid = (HAM_SUCCESS, some (size, data)) ∧
    (∀ (c0 : ExtkeyCache) (b0 : Nat),
        chainFind b0 (bucketOf c0 b0) = none →
        extkey_cache_fetch c0 b0 = (HAM_KEY_NOT_FOUND, none)) := by
  constructor
  · by_cases h1 : (pageUsed + c.usedsize + size) % U32MOD > cachesize
    · exfalso
      unfold extkey_cache_insert at hins
      rw [if_pos h1] at hins
      simp [HAM_CACHE_FULL, HAM_SUCCESS] at hins
    · cases allocOk with
      | false =>
        exfalso
        unfold extkey_cache_insert at hins
        rw [if_neg h1] at hins
        simp [HAM_OUT_OF_MEMORY, HAM_SUCCESS] at hins
      | true =>
        have hstep : (extkey_cache_insert pageUsed cachesize true c blobid
            size data).2 =
            { bucketsize := c.bucketsize
              buckets := c.buckets.set (my_calc_hash c.bucketsize blobid)
                ((⟨blobid, size, data.take size⟩ : ExtEntry) ::
                  c.buckets.getD (my_calc_hash c.bucketsize blobid) [])
              usedsize := (c.usedsize + size) % U32MOD } := by
          unfold extkey_cache_insert
          rw [if_neg h1]
          rfl
        rw [hstep]
        have htake : data.take size = data := by
          rw [← hlen]; exact List.take_length data
        have hfind : chainFind blobid (bucketOf
            { bucketsize := c.bucketsize
              buckets := c.buckets.set (my_calc_hash c.bucketsize blobid)
                ((⟨blobid, size, data.take size⟩ : ExtEntry) ::
                  c.buckets.getD (my_calc_hash c.bucketsize blobid) [])
              usedsize := (c.usedsize + size) % U32MOD } blobid) =
            some ⟨blobid, size, data.take size⟩ := by
          unfold bucketOf
          show chainFind blobid ((c.buckets.set _ _).getD
            (my_calc_hash c.bucketsize blobid) []) = _
          rw [getD_set_eq _ _ _ _
            (by rw [hstruct.1]; exact my_calc_hash_lt _ _ hstruct.2)]
          unfold chainFind
          rw [if_pos rfl]
        have hrun := extRun_preserves_entry blobid
          ⟨blobid, size, data.take size⟩ ops
          { bucketsize := c.bucketsize
            buckets := c.buckets.set (my_calc_hash c.bucketsize blobid)
              ((⟨blobid, size, data.take size⟩ : ExtEntry) ::
                c.buckets.getD (my_calc_hash c.bucketsize blobid) [])
            usedsize := (c.usedsize + size) % U32MOD }
          ⟨by show (c.buckets.set _ _).length = c.bucketsize
              rw [List.length_set]; exact hstruct.1,
            hstruct.2⟩ hfind hops
        unfold extkey_cache_fetch
        rw [hrun, htake]
  · intro c0 b0 h0
    unfold extkey_cache_fetch
    rw [h0]

/-- Witness for C5: a concrete insert followed by an unrelated insert and
an unrelated remove still fetches the original bytes, and a fetch from the
fresh cache misses. -/
theorem extkey_cache_insert_fetch_roundtrip_witness :
    extkey_cache_fetch
        (extRun (extkey_cache_insert 0 1000 true extkey_cache_new 5 3
          [1, 2, 3]).2
          [ExtOp.ins 0 1000 true 133 2 [7, 7], ExtOp.rem 133]) 5 =
      (HAM_SUCCESS, some (3, [1, 2, 3])) ∧
    extkey_cache_fetch extkey_cache_new 9 = (HAM_KEY_NOT_FOUND, none) :=
  ⟨(extkey_cache_insert_fetch_roundtrip 0 1000 true extkey_cache_new 5 3
      [1, 2, 3] [ExtOp.ins 0 1000 true 133 2 [7, 7], ExtOp.rem 133]
      (by constructor <;> decide) (by decide) (by decide)
      (by decide)).1,
   (extkey_cache_insert_fetch_roundtrip 0 1000 true extkey_cache_new 5 3
      [1, 2, 3] [] (by constructor <;> decide) (by decide) (by decide)
      (by decide)).2 extkey_cache_new 9 (by decide)⟩

/-!  ## Default key comparison (src/db.c, db_default_compare)  -/

/-- The sign of C `memcmp(lhs, rhs, n)` over byte buffers, as the C code
consumes it (the code only tests `m < 0` and `m > 0`).  Both C call sites
pass `n` no larger than either buffer. -/
def memcmp (l r : List Nat) (n : Nat) : Int :=
  match n, l, r with
  | 0, _, _ => 0
  | Nat.succ n, a :: l, b :: r =>
    if a < b then -1 else if b < a then 1 else memcmp l r n
  | Nat.succ _, _, _ => 0

/-- `db_default_compare` (db.c): lexicographic `memcmp` over the shorter
length; equal prefixes are ordered by length ("shorter is lesser" — the
code comment claims the opposite of what the code does; the spec follows
the code). -/
def db_default_compare (lhs : List Nat) (lhs_length : Nat)
    (rhs : List Nat) (rhs_length : Nat) : Int :=
  if lhs_length < rhs_length then
    if memcmp lhs rhs lhs_length < 0 then -1
    else if memcmp lhs rhs lhs_length > 0 then 1
    else -1
  else if rhs_length < lhs_length then
    if memcmp lhs rhs rhs_length < 0 then -1
    else if memcmp lhs rhs rhs_length > 0 then 1
    else 1
  else
    if memcmp lhs rhs lhs_length < 0 then -1
    else if memcmp lhs rhs lhs_length > 0 then 1
    else 0

/-- First position where the two byte strings differ, as the pair of
differing bytes; `none` when one is a prefix of the other. -/
def firstDiff : List Nat → List Nat → Option (Nat × Nat)
  | a :: l, b :: r => if a = b then firstDiff l r else some (a, b)
  | _, _ => none

example : db_default_compare [1, 2] 2 [1, 2, 3] 3 = -1 := by decide

example : db_default_compare [1, 9] 2 [1, 2, 3] 3 = 1 := by decide

example : db_default_compare [1, 2, 3] 3 [1, 2, 3] 3 = 0 := by decide

/-- Stepping both lists under equal heads. -/
theorem memcmp_cons_eq (a : Nat) (l r : List Nat) (n : Nat) :
    memcmp (a :: l) (a :: r) (n + 1) = memcmp l r n := by
  simp [memcmp]

/-- `db_default_compare`, fully characterized: the sign of the first
differing byte, and the length comparison when one side is a prefix of the
other. -/
theorem db_default_compare_eq_firstDiff (lhs rhs : List Nat) :
    db_default_compare lhs lhs.length rhs rhs.length =
      match firstDiff lhs rhs with
      | some (a, b) => if a < b then (-1 : Int) else 1
      | none =>
        if lhs.length < rhs.length then (-1 : Int)
        else if rhs.length < lhs.length then 1 else 0 := by
  induction lhs generalizing rhs with
  | nil =>
    cases rhs with
    | nil => rfl
    | cons b r => simp [db_default_compare, memcmp, firstDiff]
  | cons a l ih =>
    cases rhs with
    | nil => simp [db_default_compare, memcmp, firstDiff]
    | cons b r =>
      by_cases hab : a = b
      · subst hab
        have hstep :
            db_default_compare (a :: l) (a :: l).length
                (a :: r) (a :: r).length =
              db_default_compare l l.length r r.length := by
          simp only [db_default_compare, List.length_cons,
            add_lt_add_iff_right, memcmp_cons_eq]
        rw [hstep, ih r]
        have hfd : firstDiff (a :: l) (a :: r) = firstDiff l r := by
          simp [firstDiff]
        rw [hfd]
        cases firstDiff l r with
        | none => simp [List.length_cons, add_lt_add_iff_right]
        | some p => rfl
      · have hfd : firstDiff (a :: l) (b :: r) = some (a, b) := by
          simp [firstDiff, hab]
        rw [hfd]
        by_cases hlt : a < b
        · simp [db_default_compare, memcmp, hlt]
        · have hgt : b < a := by omega
          simp [db_default_compare, memcmp, hlt, hgt]

/-- A list never differs from its own extension. -/
theorem firstDiff_append_right (l t : List Nat) :
    firstDiff l (l ++ t) = none := by
  induction l with
  | nil => cases t <;> rfl
  | cons a l ih => simp [firstDiff, ih]

/-- An extension never differs from its own base. -/
theorem firstDiff_append_left (l t : List Nat) :
    firstDiff (l ++ t) l = none := by
  induction l with
  | nil => cases t <;> rfl
  | cons a l ih => simp [firstDiff, ih]

/-- No differing byte and equal lengths force equal strings. -/
theorem eq_of_firstDiff_none (l : List Nat) : ∀ r : List Nat,
    firstDiff l r = none → l.length = r.length → l = r := by
  induction l with
  | nil =>
    intro r _ hlen
    cases r with
    | nil => rfl
    | cons b r => simp at hlen
  | cons a l ih =>
    intro r hfd hlen
    cases r with
    | nil => simp at hlen
    | cons b r =>
      by_cases hab : a = b
      · subst hab
        simp only [firstDiff, if_pos rfl] at hfd
        have := ih r hfd (by simpa using hlen)
        rw [this]
      · simp [firstDiff, hab] at hfd

/-- C7: for every pair of byte strings, `db_default_compare` returns a
value in -1/0/+1; it returns 0 exactly when the strings are equal (equal
length and equal bytes); a strict prefix compares as lesser; otherwise the
result is the sign of the first differing byte. -/
theorem db_default_compare_spec (lhs rhs : List Nat) :
    (db_default_compare lhs lhs.length rhs rhs.length = -1 ∨
     db_default_compare lhs lhs.length rhs rhs.length = 0 ∨
     db_default_compare lhs lhs.length rhs rhs.length = 1) ∧
    (db_default_compare lhs lhs.length rhs rhs.length = 0 ↔ lhs = rhs) ∧
    (∀ t : List Nat, lhs ++ t = rhs → lhs ≠ rhs →
      db_default_compare lhs lhs.length rhs rhs.length = -1) ∧
    (∀ t : List Nat, rhs ++ t = lhs → rhs ≠ lhs →
      db_default_compare lhs lhs.length rhs rhs.length = 1) ∧
    (∀ a b : Nat, firstDiff lhs rhs = some (a, b) →
      db_default_compare lhs lhs.length rhs rhs.length =
        if a < b then -1 else 1) := by
  refine ⟨?_, ⟨?_, ?_⟩, ?_, ?_, ?_⟩
  · rw [db_default_compare_eq_firstDiff]
    cases firstDiff lhs rhs with
    | none =>
      by_cases h1 : lhs.length < rhs.length
      · simp [h1]
      · by_cases h2 : rhs.length < lhs.length <;> simp [h1, h2]
    | some p =>
      cases p with
      | mk a b => by_cases h : a < b <;> simp [h]
  · intro h0
    rw [db_default_compare_eq_firstDiff] at h0
    cases hfd : firstDiff lhs rhs with
    | none =>
      rw [hfd] at h0
      by_cases h1 : lhs.length < rhs.length
      · rw [if_pos h1] at h0; exact absurd h0 (by decide)
      · rw [if_neg h1] at h0
        by_cases h2 : rhs.length < lhs.length
        · rw [if_pos h2] at h0; exact absurd h0 (by decide)
        · rw [if_neg h2] at h0
          exact eq_of_firstDiff_none lhs rhs hfd (by omega)
    | some p =>
      cases p with
      | mk a b =>
        rw [hfd] at h0
        by_cases h : a < b
        · simp [h] at h0
        · simp [h] at h0
  · intro heq
    subst heq
    rw [db_default_compare_eq_firstDiff]
    have : firstDiff lhs lhs = none := by
      have := firstDiff_append_right lhs []
      simpa using this
    rw [this]
    simp
  · intro t hpre hne
    rw [db_default_compare_eq_firstDiff]
    subst hpre
    rw [firstDiff_append_right]
    have ht : t ≠ [] := by
      intro h0
      subst h0
      exact hne (by simp)
    have hlt : lhs.length < (lhs ++ t).length := by
      rw [List.length_append]
      cases t with
      | nil => exact absurd rfl ht
      | cons x xs => simp
    rw [if_pos hlt]
  · intro t hpre hne
    rw [db_default_compare_eq_firstDiff]
    subst hpre
    rw [firstDiff_append_left]
    have ht : t ≠ [] := by
      intro h0
      subst h0
      exact hne (by simp)
    have hlt : rhs.length < (rhs ++ t).length := by
      rw [List.length_append]
      cases t with
      | nil => exact absurd rfl ht
      | cons x xs => simp
    rw [if_neg (by omega), if_pos hlt]
  · intro a b hfd
    rw [db_default_compare_eq_firstDiff, hfd]

/-- Witness for C7 at concrete strings: a strict prefix compares lesser on
both sides, and a first differing byte decides the sign. -/
theorem db_default_compare_spec_witness :
    db_default_compare [1, 2] [1, 2].length [1, 2, 3] [1, 2, 3].length =
        -1 ∧
    db_default_compare [1, 2, 3] [1, 2, 3].length [1, 2] [1, 2].length =
        1 ∧
    db_default_compare [1, 9] [1, 9].length [1, 2, 3] [1, 2, 3].length =
        (if (9 : Nat) < 2 then (-1 : Int) else 1) :=
  ⟨(db_default_compare_spec [1, 2] [1, 2, 3]).2.2.1 [3] (by decide)
      (by decide),
   (db_default_compare_spec [1, 2, 3] [1, 2]).2.2.2.1 [3] (by decide)
      (by decide),
   (db_default_compare_spec [1, 9] [1, 2, 3]).2.2.2.2 9 2 (by decide)⟩

/-!  ## Default cache size (src/config.h)  -/

/-- `HAM_DEFAULT_CACHESIZE` (src/config.h): `(1024*256)`, under the
comment "the default cache size is 256". -/
def HAM_DEFAULT_CACHESIZE : Nat := 1024 * 256

/-- C9 counterexample: the default cachesize constant is not
1,048,576 bytes (it is not 256 pages of 4 KiB). -/
theorem ham_default_cachesize_cex :
    HAM_DEFAULT_CACHESIZE ≠ 1048576 := by decide

/-- C9 amended: the default cachesize constant equals 262,144 bytes
(256 KiB), which is 64 pages of 4 KiB. -/
theorem ham_default_cachesize_value :
    HAM_DEFAULT_CACHESIZE = 262144 ∧ HAM_DEFAULT_CACHESIZE = 64 * 4096 := by
  decide

/-!  ## Pages, page reuse and page release (src/db.c)

The flag constants live in headers that are not under src/
(`ham/hamsterdb.h`, `db.h`, `page.h`); the spec names the flags, and only
bit-distinctness within each flag word matters, so they are modelled as
distinct bits.  -/

/-- Modelled from the spec: `HAM_IN_MEMORY_DB` DB flag bit. -/
def HAM_IN_MEMORY_DB : Nat := 1

/-- Modelled from the spec: `DB_USE_MMAP` internal DB flag bit. -/
def DB_USE_MMAP : Nat := 2

/-- Modelled from the spec: `PAGE_NPERS_MALLOC` bit of `npers_flags`,
marking a heap-backed (rather than mmap-backed) page buffer. -/
def PAGE_NPERS_MALLOC : Nat := 1

/-- Modelled from the spec: `PAGE_NPERS_DELETE_PENDING` bit of
`npers_flags`. -/
def PAGE_NPERS_DELETE_PENDING : Nat := 2

/-- Modelled from the spec: `DB_FLUSH_NODELETE` flag of
`db_write_page_and_delete`. -/
def DB_FLUSH_NODELETE : Nat := 1

/-- Modelled from the spec: the `PAGE_TYPE_B_ROOT` page type tag. -/
def PAGE_TYPE_B_ROOT : Nat := 2

/-- Modelled from the spec: the `PAGE_TYPE_B_INDEX` page type tag. -/
def PAGE_TYPE_B_INDEX : Nat := 3

/-- The in-memory page struct `ham_page_t` as db.c manipulates it: file
offset (`self`), page type, dirty bit, whether a persistent buffer is
attached (`pers != 0`), the non-persistent flags, the owner DB, the cache
counter and the in-use bit. -/
structure HamPage where
  self : Nat
  ptype : Nat
  dirty : Bool
  persAllocated : Bool
  npersFlags : Nat
  owner : Nat
  cacheCntr : Nat
  inuse : Bool
  deriving Repr, DecidableEq

/-- `memset(page, 0, sizeof(ham_page_t))`. -/
def zeroPage : HamPage :=
  { self := 0, ptype := 0, dirty := false, persAllocated := false
    npersFlags := 0, owner := 0, cacheCntr := 0, inuse := false }

/-- The externally visible effects of the db.c page routines, in program
order: a positional write of a page (`os_pwrite` at its `self` offset), a
buffer release by `os_munmap` or `ham_mem_free`, a fresh buffer
allocation, a `blob_free`, a `cache_remove_page`, and the release of a
page struct. -/
inductive PageAction where
  | pwrite (self : Nat)
  | munmapBuf
  | memFreeBuf
  | allocPers
  | blobFree (blobid : Nat)
  | cacheRemovePage
  | memFreeStruct
  deriving Repr, DecidableEq

/-- Result of `my_alloc_page` / `db_alloc_page_struct`: the page handed to
the caller (`none` = C null), the DB error slot, and the I/O and memory
actions issued, in order. -/
structure AllocPageOut where
  page : Option HamPage
  dbError : Int
  actions : List PageAction
  deriving Repr, DecidableEq

/-- `db_alloc_page_struct` (db.c): allocate and zero a page struct, set
the owner and a provisional cache counter of 20, and for non-mmap DBs
attach a heap buffer (setting `PAGE_NPERS_MALLOC`).  `structAllocOk` and
`persAllocOk` are the outcomes of the two `ham_mem_alloc` calls. -/
def db_alloc_page_struct (dbFlags dbId : Nat)
    (structAllocOk persAllocOk : Bool) : AllocPageOut :=
  if structAllocOk = false then
    { page := none, dbError := HAM_OUT_OF_MEMORY, actions := [] }
  else if dbFlags &&& DB_USE_MMAP = 0 then
    if persAllocOk then
      { page := some { zeroPage with
            owner := dbId
            cacheCntr := 20
            persAllocated := true
            npersFlags := PAGE_NPERS_MALLOC }
        dbError := HAM_SUCCESS
        actions := [PageAction.allocPers] }
    else
      { page := none, dbError := HAM_OUT_OF_MEMORY, actions := [] }
  else
    { page := some { zeroPage with owner := dbId, cacheCntr := 20 }
      dbError := HAM_SUCCESS, actions := [] }

/-- The trailing block of `my_alloc_page` (db.c lines 139-153): for
non-mmap DBs, if the page has no persistent buffer, allocate one and set
`PAGE_NPERS_MALLOC`; `OUT_OF_MEMORY` on allocation failure. -/
def myAllocSecondBuffer (dbFlags : Nat) (persAllocOk : Bool)
    (r : AllocPageOut) : AllocPageOut :=
  match r.page with
  | none => r
  | some p =>
    if dbFlags &&& DB_USE_MMAP = 0 ∧ p.persAllocated = false then
      if persAllocOk then
        { page := some { p with
              persAllocated := true
              npersFlags := p.npersFlags ||| PAGE_NPERS_MALLOC }
          dbError := r.dbError
          actions := r.actions ++ [PageAction.allocPers] }
      else
        { page := none, dbError := HAM_OUT_OF_MEMORY, actions := r.actions }
    else r

/-- The victim-reuse tail of `my_alloc_page` (db.c lines 125-153): release
the victim's buffer according to its backing mode (`os_munmap` unless
`PAGE_NPERS_MALLOC`, else `ham_mem_free`), zero the page struct, set the
owner, then run the trailing buffer-allocation block.  `acts` are the
actions already issued (the dirty-victim write). -/
def myAllocReuse (dbFlags dbId : Nat) (persAllocOk : Bool) (munmapSt : Int)
    (victim : HamPage) (acts : List PageAction) : AllocPageOut :=
  if victim.npersFlags &&& PAGE_NPERS_MALLOC = 0 then
    if munmapSt = 0 then
      myAllocSecondBuffer dbFlags persAllocOk
        { page := some { zeroPage with owner := dbId }
          dbError := HAM_SUCCESS
          actions := acts ++ [PageAction.munmapBuf] }
    else
      { page := none, dbError := munmapSt
        actions := acts ++ [PageAction.munmapBuf] }
  else
    myAllocSecondBuffer dbFlags persAllocOk
      { page := some { zeroPage with owner := dbId }
        dbError := HAM_SUCCESS
        actions := acts ++ [PageAction.memFreeBuf] }

/-- `my_alloc_page` (db.c lines 88-159).  If the cache can add a page,
allocate a fresh struct; otherwise reuse the victim `cache_get_unused`
returned (`none` = null → `CACHE_FULL`): a dirty victim of an on-disk DB
is first written (`my_write_page`; `pwriteOk` is the `os_pwrite` outcome,
failure = `IO_ERROR`), then its buffer is released and the struct
recycled. -/
def my_alloc_page (dbFlags dbId : Nat) (canAdd : Bool)
    (unused : Option HamPage) (structAllocOk persAllocOk pwriteOk : Bool)
    (munmapSt : Int) : AllocPageOut :=
  if canAdd then
    myAllocSecondBuffer dbFlags persAllocOk
      (db_alloc_page_struct dbFlags dbId structAllocOk persAllocOk)
  else
    match unused with
    | none => { page := none, dbError := HAM_CACHE_FULL, actions := [] }
    | some victim =>
      if victim.dirty ∧ dbFlags &&& HAM_IN_MEMORY_DB = 0 then
        if pwriteOk then
          myAllocReuse dbFlags dbId persAllocOk munmapSt victim
            [PageAction.pwrite victim.self]
        else
          { page := none, dbError := HAM_IO_ERROR
            actions := [PageAction.pwrite victim.self] }
      else
        myAllocReuse dbFlags dbId persAllocOk munmapSt victim []

example :
    my_alloc_page 0 7 false
      (some { zeroPage with
          self := 4096
          dirty := true
          npersFlags := PAGE_NPERS_MALLOC
          persAllocated := true })
      true true true 0 =
    { page := some { zeroPage with
          owner := 7
          persAllocated := true
          npersFlags := PAGE_NPERS_MALLOC }
      dbError := HAM_SUCCESS
      actions := [PageAction.pwrite 4096, PageAction.memFreeBuf,
                  PageAction.allocPers] } := by decide

/-- C3: when `my_alloc_page` runs with `can_add_page` false: with no
victim it fails with `CACHE_FULL` touching nothing; with a victim (and the
write, unmap and allocation succeeding) a dirty victim of an on-disk DB is
written before its buffer is released, the buffer is released per its
backing mode (heap free when `PAGE_NPERS_MALLOC`, munmap otherwise), and
the caller receives a zeroed page struct whose owner is the DB (with a
fresh heap buffer for non-mmap DBs). -/
theorem my_alloc_page_eviction_spec (dbFlags dbId : Nat)
    (structAllocOk persAllocOk pwriteOk : Bool) (munmapSt : Int)
    (victim : HamPage) :
    (my_alloc_page dbFlags dbId false none structAllocOk persAllocOk
        pwriteOk munmapSt =
      { page := none, dbError := HAM_CACHE_FULL, actions := [] }) ∧
    (my_alloc_page dbFlags dbId false (some victim) structAllocOk true
        true 0 =
      { page := some (if dbFlags &&& DB_USE_MMAP = 0 then
            { zeroPage with
                owner := dbId
                persAllocated := true
                npersFlags := PAGE_NPERS_MALLOC }
          else { zeroPage with owner := dbId })
        dbError := HAM_SUCCESS
        actions :=
          (if victim.dirty ∧ dbFlags &&& HAM_IN_MEMORY_DB = 0 then
            [PageAction.pwrite victim.self]
          else []) ++
          [if victim.npersFlags &&& PAGE_NPERS_MALLOC = 0 then
            PageAction.munmapBuf
          else PageAction.memFreeBuf] ++
          (if dbFlags &&& DB_USE_MMAP = 0 then [PageAction.allocPers]
          else []) }) := by
  constructor
  · rfl
  · by_cases hw : victim.dirty ∧ dbFlags &&& HAM_IN_MEMORY_DB = 0 <;>
      by_cases hm : victim.npersFlags &&& PAGE_NPERS_MALLOC = 0 <;>
      by_cases hmm : dbFlags &&& DB_USE_MMAP = 0 <;>
      simp [my_alloc_page, myAllocReuse, myAllocSecondBuffer, zeroPage,
        Nat.zero_or, hw, hm, hmm]

/-!  ## Freeing pages (src/db.c: db_free_page, db_free_page_struct,
db_write_page_and_delete)

The extended-key scrub loop reads the btree node stored in the page
(`ham_page_get_btree_node`, `btree_node_*` from btree.h, which is not
under src/).  Modelled from the spec: the node is abstracted to whether it
is a leaf and to the list of tail blob ids of its `KEY_IS_EXTENDED` keys,
read from the last 8 bytes of each key slot.  -/

/-- The scrub loop shared by `db_free_page` and `db_free_page_struct`
(db.c): for every extended key of the leaf, an in-memory DB frees the tail
blob, an on-disk DB with a live extkey cache removes the blob id from the
cache. -/
def extkeyScrub (dbFlags : Nat) (blobids : List Nat)
    (cache : Option ExtkeyCache) : Option ExtkeyCache × List PageAction :=
  match blobids with
  | [] => (cache, [])
  | blobid :: rest =>
    if dbFlags &&& HAM_IN_MEMORY_DB ≠ 0 then
      ((extkeyScrub dbFlags rest cache).1,
        PageAction.blobFree blobid :: (extkeyScrub dbFlags rest cache).2)
    else
      match cache with
      | some cc =>
        extkeyScrub dbFlags rest (some (extkey_cache_remove cc blobid).2)
      | none => extkeyScrub dbFlags rest cache

/-- Result of `db_free_page`: the C status, the page as left behind, the
extkey cache as left behind, and the actions issued. -/
structure FreePageOut where
  status : Int
  page : HamPage
  cache : Option ExtkeyCache
  actions : List PageAction
  deriving Repr, DecidableEq

/-- `db_free_page` (db.c lines 758-800): scrub the extended keys of a
btree leaf page from the extkey cache (or free their blobs for an
in-memory DB), then set `PAGE_NPERS_DELETE_PENDING` on the page.  `isLeaf`
and `extBlobids` abstract the btree node as described above.  The page's
buffer is not touched and nothing is written. -/
def db_free_page (dbFlags : Nat) (p : HamPage) (isLeaf : Bool)
    (extBlobids : List Nat) (cache : Option ExtkeyCache) : FreePageOut :=
  if (p.ptype = PAGE_TYPE_B_ROOT ∨ p.ptype = PAGE_TYPE_B_INDEX) ∧
      isLeaf = true then
    { status := HAM_SUCCESS
      page := { p with
        npersFlags := p.npersFlags ||| PAGE_NPERS_DELETE_PENDING }
      cache := (extkeyScrub dbFlags extBlobids cache).1
      actions := (extkeyScrub dbFlags extBlobids cache).2 }
  else
    { status := HAM_SUCCESS
      page := { p with
        npersFlags := p.npersFlags ||| PAGE_NPERS_DELETE_PENDING }
      cache := cache
      actions := [] }

/-- `db_free_page_struct` (db.c lines 192-242): remove the page from the
page cache, scrub its extended keys (only when the page is NOT
delete-pending — a freed page was scrubbed already by `db_free_page`),
release its buffer per backing mode, release the struct. -/
def db_free_page_struct (dbFlags : Nat) (p : HamPage) (isLeaf : Bool)
    (extBlobids : List Nat) (cache : Option ExtkeyCache) :
    Option ExtkeyCache × List PageAction :=
  ((if p.npersFlags &&& PAGE_NPERS_DELETE_PENDING = 0 ∧
        (p.ptype = PAGE_TYPE_B_ROOT ∨ p.ptype = PAGE_TYPE_B_INDEX) ∧
        isLeaf = true then
      (extkeyScrub dbFlags extBlobids cache).1
    else cache),
    PageAction.cacheRemovePage ::
      ((if p.npersFlags &&& PAGE_NPERS_DELETE_PENDING = 0 ∧
            (p.ptype = PAGE_TYPE_B_ROOT ∨ p.ptype = PAGE_TYPE_B_INDEX) ∧
            isLeaf = true then
          (extkeyScrub dbFlags extBlobids cache).2
        else []) ++
        (if p.persAllocated then
          [if p.npersFlags &&& PAGE_NPERS_MALLOC ≠ 0 then
            PageAction.memFreeBuf
          else PageAction.munmapBuf]
        else []) ++
        [PageAction.memFreeStruct]))

/-- `db_write_page_and_delete` (db.c lines 802-818): write the page when
it is dirty and the DB is on-disk — the delete-pending flag is not
consulted — then free the page struct unless `DB_FLUSH_NODELETE`. -/
def db_write_page_and_delete (dbFlags : Nat) (p : HamPage) (flags : Nat)
    (isLeaf : Bool) (extBlobids : List Nat) (cache : Option ExtkeyCache) :
    Int × Option ExtkeyCache × List PageAction :=
  if flags &&& DB_FLUSH_NODELETE = 0 then
    (HAM_SUCCESS,
      (db_free_page_struct dbFlags p isLeaf extBlobids cache).1,
      (if p.dirty = true ∧ dbFlags &&& HAM_IN_MEMORY_DB = 0 then
        [PageAction.pwrite p.self]
      else []) ++
        (db_free_page_struct dbFlags p isLeaf extBlobids cache).2)
  else
    (HAM_SUCCESS, cache,
      (if p.dirty = true ∧ dbFlags &&& HAM_IN_MEMORY_DB = 0 then
        [PageAction.pwrite p.self]
      else []))

/-- A concrete dirty btree leaf page of an on-disk DB at file offset
4096. -/
def dirtyLeafPage : HamPage :=
  { zeroPage with
      self := 4096
      ptype := PAGE_TYPE_B_INDEX
      dirty := true
      persAllocated := true
      npersFlags := PAGE_NPERS_MALLOC
      owner := 1 }

/-- C1 (falsified by the code): `db_free_page` marks `dirtyLeafPage`
delete-pending, yet the subsequent `db_write_page_and_delete` still issues
the positional write of that page — db.c line 808 tests only
`page_is_dirty(page)` and `HAM_IN_MEMORY_DB`, never
`PAGE_NPERS_DELETE_PENDING`. -/
theorem db_write_page_and_delete_writes_delete_pending :
    ((db_free_page 0 dirtyLeafPage true [] none).page.npersFlags &&&
        PAGE_NPERS_DELETE_PENDING ≠ 0) ∧
    PageAction.pwrite 4096 ∈
      (db_write_page_and_delete 0
        (db_free_page 0 dirtyLeafPage true [] none).page 0 true []
        none).2.2 := by
  decide

/-!  ## Key comparison with extended keys (src/db.c, db_compare_keys)

The user compare functions, `blob_read` and the allocator are collaborators
outside src/ and enter the embedding as oracles in `CmpEnv`.  -/

/-- Modelled from the spec: the `KEY_IS_EXTENDED` key-flag bit. -/
def KEY_IS_EXTENDED : Nat := 1

/-- The raw 8-byte read `*(ham_offset_t *)p` of the tail blob id from a
key slot, little-endian (config.h defaults to `HAM_LITTLE_ENDIAN`). -/
def bytesToOffset (l : List Nat) : Nat :=
  ((l.take 8).reverse).foldl (fun acc b => acc * 256 + b) 0

/-- Everything `db_compare_keys` reads from the DB and its collaborators:
DB flags and key size; the page-cache numbers the extkey-cache insert
reads; the extkey cache at entry and the outcome of `extkey_cache_new`;
the user prefix-compare call abstracted to (return value, error it sets)
(`none` = no prefix function); the full compare function; `blob_read` as a
map from blob id to (status, tail bytes); the outcomes of the four
`ham_mem_alloc` calls; and the two keys as (flags, bytes, stated length). -/
structure CmpEnv where
  inMemory : Bool
  keysize : Nat
  pageUsed : Nat
  cachesize : Nat
  cache0 : Option ExtkeyCache
  cacheNewOk : Bool
  prefoo : Option (Int × Int)
  foo : List Nat → Nat → List Nat → Nat → Int
  blobRead : Nat → Int × List Nat
  alloc1Ok : Bool
  alloc2Ok : Bool
  insAlloc1Ok : Bool
  insAlloc2Ok : Bool
  lhsFlags : Nat
  lhs : List Nat
  lhsLen : Nat
  rhsFlags : Nat
  rhs : List Nat
  rhsLen : Nat

/-- What `db_compare_keys` leaves behind: the returned comparison value,
the DB error slot, the extkey cache, and — for each side — the size of the
freshly allocated assembly buffer (`ham_mem_alloc(record.size + keysize)`)
and the full-key bytes in hand. -/
structure CmpOut where
  ret : Int
  err : Int
  cache : Option ExtkeyCache
  lhsAllocSize : Option Nat
  rhsAllocSize : Option Nat
  lhsBuf : Option (List Nat)
  rhsBuf : Option (List Nat)
  deriving Repr, DecidableEq

/-- Outcome of loading one side's full key (the two symmetric blocks of
db.c lines 441-541): `early` = the function returned this status
immediately; `bail` = `goto bail` was taken with the DB error set to
`err`; otherwise `buf` holds the full key bytes when the side was
extended, `allocSize` the assembly allocation, `allocFlag` the
alloc1/alloc2 marker, and `cache` the extkey cache after the block. -/
structure LoadOut where
  early : Option Int
  bail : Bool
  err : Int
  buf : Option (List Nat)
  allocSize : Option Nat
  allocFlag : Bool
  cache : Option ExtkeyCache
  deriving Repr, DecidableEq

/-- The cache probe of the load block: on-disk DBs consult the extkey
cache; in-memory DBs skip it (`st=HAM_KEY_NOT_FOUND`). -/
def fetchFromCache (inMemory : Bool) (cache : Option ExtkeyCache)
    (blobid : Nat) : Int × Option (Nat × List Nat) :=
  if inMemory = false then
    match cache with
    | some cc => extkey_cache_fetch cc blobid
    | none => (HAM_KEY_NOT_FOUND, none)
  else (HAM_KEY_NOT_FOUND, none)

/-- One side of db.c lines 441-541: if the key is extended, read its tail
blob id from the last 8 bytes of the slot, probe the extkey cache, and on
a miss read the tail blob, allocate `record.size + keysize` bytes,
assemble `inline_prefix ++ tail_bytes`, and (for on-disk DBs) insert the
full key into the cache under the stated key length. -/
def loadExtKey (inMemory : Bool) (keysize pageUsed cachesize : Nat)
    (blobRead : Nat → Int × List Nat) (allocOk insAllocOk : Bool)
    (cache : Option ExtkeyCache) (flags : Nat) (key : List Nat)
    (len : Nat) : LoadOut :=
  if flags &&& KEY_IS_EXTENDED = 0 then
    { early := none, bail := false, err := 0, buf := none
      allocSize := none, allocFlag := false, cache := cache }
  else
    let blobid := bytesToOffset (key.drop (keysize - 8))
    let fr := fetchFromCache inMemory cache blobid
    if fr.1 = HAM_SUCCESS then
      { early := none, bail := false, err := 0
        buf := some (fr.2.getD (0, [])).2
        allocSize := none, allocFlag := false, cache := cache }
    else if fr.1 ≠ HAM_KEY_NOT_FOUND then
      { early := some fr.1, bail := false, err := fr.1, buf := none
        allocSize := none, allocFlag := false, cache := cache }
    else
      let br := blobRead blobid
      if br.1 ≠ 0 then
        { early := none, bail := true, err := br.1, buf := none
          allocSize := none, allocFlag := false, cache := cache }
      else if allocOk = false then
        { early := none, bail := true, err := HAM_OUT_OF_MEMORY
          buf := none, allocSize := none, allocFlag := false
          cache := cache }
      else
        { early := none, bail := false, err := 0
          buf := some (key.take (keysize - 8) ++ br.2)
          allocSize := some (br.2.length + keysize)
          allocFlag := true
          cache :=
            if inMemory = false then
              match cache with
              | some cc =>
                some (extkey_cache_insert pageUsed cachesize insAllocOk cc
                  blobid len (key.take (keysize - 8) ++ br.2)).2
              | none => cache
            else cache }

/-- The prefix-compare return value (`HAM_PREFIX_REQUEST_FULLKEY` when no
prefix function is installed, so the full-key path runs). -/
def prefooRet (env : CmpEnv) : Int :=
  match env.prefoo with
  | none => HAM_PREFIX_REQUEST_FULLKEY
  | some pr => pr.1

/-- The DB error the prefix-compare call left behind (0 when absent). -/
def prefooErr (env : CmpEnv) : Int :=
  match env.prefoo with
  | none => 0
  | some pr => pr.2

/-- `db_get_extkey_cache` after the creation step of db.c lines 430-436:
on-disk DBs lacking a cache get a fresh one (when its allocation
succeeds). -/
def cacheEnsured (env : CmpEnv) : Option ExtkeyCache :=
  if env.inMemory = false ∧ env.cache0 = none then
    (if env.cacheNewOk then some extkey_cache_new else none)
  else env.cache0

/-- The tail blob id of the left key. -/
def lhsBlobid (env : CmpEnv) : Nat :=
  bytesToOffset (env.lhs.drop (env.keysize - 8))

/-- The tail blob id of the right key. -/
def rhsBlobid (env : CmpEnv) : Nat :=
  bytesToOffset (env.rhs.drop (env.keysize - 8))

/-- The load block for the left key. -/
def lhsStep (env : CmpEnv) : LoadOut :=
  loadExtKey env.inMemory env.keysize env.pageUsed env.cachesize
    env.blobRead env.alloc1Ok env.insAlloc1Ok (cacheEnsured env)
    env.lhsFlags env.lhs env.lhsLen

/-- The load block for the right key (it sees the cache the left block
left behind). -/
def rhsStep (env : CmpEnv) : LoadOut :=
  loadExtKey env.inMemory env.keysize env.pageUsed env.cachesize
    env.blobRead env.alloc2Ok env.insAlloc2Ok (lhsStep env).cache
    env.rhsFlags env.rhs env.rhsLen

/-- `db_compare_keys` (db.c lines 371-556).  Two inline keys go straight
to the full compare.  Otherwise the prefix compare runs when installed (an
error it raises makes the function return 0); on
`HAM_PREFIX_REQUEST_FULLKEY` the extkey cache is ensured, both extended
sides are materialized, and the full compare runs over the materialized
buffers; a failure while materializing sets the DB error and jumps to
`bail`, which returns `cmp` — still `HAM_PREFIX_REQUEST_FULLKEY`. -/
def db_compare_keys (env : CmpEnv) : CmpOut :=
  if env.lhsFlags &&& KEY_IS_EXTENDED = 0 ∧
      env.rhsFlags &&& KEY_IS_EXTENDED = 0 then
    { ret := env.foo env.lhs env.lhsLen env.rhs env.rhsLen, err := 0
      cache := env.cache0, lhsAllocSize := none, rhsAllocSize := none
      lhsBuf := none, rhsBuf := none }
  else if prefooErr env ≠ 0 then
    { ret := 0, err := prefooErr env, cache := env.cache0
      lhsAllocSize := none, rhsAllocSize := none
      lhsBuf := none, rhsBuf := none }
  else if prefooRet env ≠ HAM_PREFIX_REQUEST_FULLKEY then
    { ret := prefooRet env, err := 0, cache := env.cache0
      lhsAllocSize := none, rhsAllocSize := none
      lhsBuf := none, rhsBuf := none }
  else if env.inMemory = false ∧ cacheEnsured env = none then
    { ret := HAM_OUT_OF_MEMORY, err := HAM_OUT_OF_MEMORY, cache := none
      lhsAllocSize := none, rhsAllocSize := none
      lhsBuf := none, rhsBuf := none }
  else
    match (lhsStep env).early with
    | some st =>
      { ret := st, err := st, cache := (lhsStep env).cache
        lhsAllocSize := (lhsStep env).allocSize, rhsAllocSize := none
        lhsBuf := (lhsStep env).buf, rhsBuf := none }
    | none =>
      if (lhsStep env).bail then
        { ret := HAM_PREFIX_REQUEST_FULLKEY, err := (lhsStep env).err
          cache := (lhsStep env).cache
          lhsAllocSize := (lhsStep env).allocSize, rhsAllocSize := none
          lhsBuf := (lhsStep env).buf, rhsBuf := none }
      else
        match (rhsStep env).early with
        | some st =>
          { ret := st, err := st, cache := (rhsStep env).cache
            lhsAllocSize := (lhsStep env).allocSize
            rhsAllocSize := (rhsStep env).allocSize
            lhsBuf := (lhsStep env).buf, rhsBuf := (rhsStep env).buf }
        | none =>
          if (rhsStep env).bail then
            { ret := HAM_PREFIX_REQUEST_FULLKEY, err := (rhsStep env).err
              cache := (rhsStep env).cache
              lhsAllocSize := (lhsStep env).allocSize
              rhsAllocSize := (rhsStep env).allocSize
              lhsBuf := (lhsStep env).buf, rhsBuf := (rhsStep env).buf }
          else
            { ret := env.foo ((lhsStep env).buf.getD env.lhs) env.lhsLen
                ((rhsStep env).buf.getD env.rhs) env.rhsLen
              err := 0, cache := (rhsStep env).cache
              lhsAllocSize := (lhsStep env).allocSize
              rhsAllocSize := (rhsStep env).allocSize
              lhsBuf := (lhsStep env).buf, rhsBuf := (rhsStep env).buf }

/-- A concrete on-disk environment: extended 64-byte left key whose tail
blob read fails with `IO_ERROR`; inline right key. -/
def cmpEnvIoErr : CmpEnv :=
  { inMemory := false
    keysize := 16
    pageUsed := 0
    cachesize := 1000000
    cache0 := some extkey_cache_new
    cacheNewOk := true
    prefoo := none
    foo := fun _ _ _ _ => 0
    blobRead := fun _ => (HAM_IO_ERROR, [])
    alloc1Ok := true
    alloc2Ok := true
    insAlloc1Ok := true
    insAlloc2Ok := true
    lhsFlags := KEY_IS_EXTENDED
    lhs := [1, 2, 3, 4, 5, 6, 7, 8, 42, 0, 0, 0, 0, 0, 0, 0]
    lhsLen := 64
    rhsFlags := 0
    rhs := [9, 9]
    rhsLen := 2 }

/-- C2 counterexample: on an `IO_ERROR` from the blob read,
`db_compare_keys` sets the DB error but returns
`HAM_PREFIX_REQUEST_FULLKEY`, not 0. -/
theorem db_compare_keys_error_returns_sentinel_cex :
    (db_compare_keys cmpEnvIoErr).err = HAM_IO_ERROR ∧
    (db_compare_keys cmpEnvIoErr).ret ≠ 0 ∧
    (db_compare_keys cmpEnvIoErr).ret = HAM_PREFIX_REQUEST_FULLKEY := by
  decide

/-- C2 amended: how `db_compare_keys` surfaces each failure.  An error
raised by the user prefix-compare function makes it return 0 with that
error in the DB error slot; a failed `extkey_cache_new` makes it return
`OUT_OF_MEMORY` (the DB error); an `IO_ERROR`/failure from the blob read
or an `OUT_OF_MEMORY` from the assembly allocation, on either side, sets
the DB error to that error but makes the function return
`HAM_PREFIX_REQUEST_FULLKEY` (the value of `cmp` at `bail`) — not 0. -/
theorem db_compare_keys_error_paths (env : CmpEnv) :
    (∀ r e : Int, env.rhsFlags &&& KEY_IS_EXTENDED ≠ 0 →
      env.prefoo = some (r, e) → e ≠ 0 →
      (db_compare_keys env).ret = 0 ∧ (db_compare_keys env).err = e) ∧
    (env.rhsFlags &&& KEY_IS_EXTENDED ≠ 0 → prefooErr env = 0 →
      prefooRet env = HAM_PREFIX_REQUEST_FULLKEY →
      env.inMemory = false → cacheEnsured env = none →
      (db_compare_keys env).ret = HAM_OUT_OF_MEMORY ∧
        (db_compare_keys env).err = HAM_OUT_OF_MEMORY) ∧
    (env.lhsFlags &&& KEY_IS_EXTENDED ≠ 0 → prefooErr env = 0 →
      prefooRet env = HAM_PREFIX_REQUEST_FULLKEY →
      ¬(env.inMemory = false ∧ cacheEnsured env = none) →
      fetchFromCache env.inMemory (cacheEnsured env) (lhsBlobid env) =
        (HAM_KEY_NOT_FOUND, none) →
      (env.blobRead (lhsBlobid env)).1 ≠ 0 →
      (db_compare_keys env).ret = HAM_PREFIX_REQUEST_FULLKEY ∧
        (db_compare_keys env).err = (env.blobRead (lhsBlobid env)).1) ∧
    (env.lhsFlags &&& KEY_IS_EXTENDED ≠ 0 → prefooErr env = 0 →
      prefooRet env = HAM_PREFIX_REQUEST_FULLKEY →
      ¬(env.inMemory = false ∧ cacheEnsured env = none) →
      fetchFromCache env.inMemory (cacheEnsured env) (lhsBlobid env) =
        (HAM_KEY_NOT_FOUND, none) →
      (env.blobRead (lhsBlobid env)).1 = 0 → env.alloc1Ok = false →
      (db_compare_keys env).ret = HAM_PREFIX_REQUEST_FULLKEY ∧
        (db_compare_keys env).err = HAM_OUT_OF_MEMORY) ∧
    (env.rhsFlags &&& KEY_IS_EXTENDED ≠ 0 → prefooErr env = 0 →
      prefooRet env = HAM_PREFIX_REQUEST_FULLKEY →
      ¬(env.inMemory = false ∧ cacheEnsured env = none) →
      (lhsStep env).early = none → (lhsStep env).bail = false →
      fetchFromCache env.inMemory ((lhsStep env).cache) (rhsBlobid env) =
        (HAM_KEY_NOT_FOUND, none) →
      (env.blobRead (rhsBlobid env)).1 ≠ 0 →
      (db_compare_keys env).ret = HAM_PREFIX_REQUEST_FULLKEY ∧
        (db_compare_keys env).err = (env.blobRead (rhsBlobid env)).1) ∧
    (env.rhsFlags &&& KEY_IS_EXTENDED ≠ 0 → prefooErr env = 0 →
      prefooRet env = HAM_PREFIX_REQUEST_FULLKEY →
      ¬(env.inMemory = false ∧ cacheEnsured env = none) →
      (lhsStep env).early = none → (lhsStep env).bail = false →
      fetchFromCache env.inMemory ((lhsStep env).cache) (rhsBlobid env) =
        (HAM_KEY_NOT_FOUND, none) →
      (env.blobRead (rhsBlobid env)).1 = 0 → env.alloc2Ok = false →
      (db_compare_keys env).ret = HAM_PREFIX_REQUEST_FULLKEY ∧
        (db_compare_keys env).err = HAM_OUT_OF_MEMORY) := by
  refine ⟨?_, ?_, ?_, ?_, ?_, ?_⟩
  · intro r e hext hp he
    have h1 : prefooErr env = e := by simp [prefooErr, hp]
    simp [db_compare_keys, hext, h1, he]
  · intro hext hpe hpr hmem hnone
    simp [db_compare_keys, hext, hpe, hpr, hmem, hnone,
      HAM_PREFIX_REQUEST_FULLKEY]
  · intro hext hpe hpr hens hmiss hbr
    simp only [lhsBlobid] at hmiss hbr
    simp [db_compare_keys, lhsStep, loadExtKey, lhsBlobid, hext, hpe, hpr,
      hens, hmiss, hbr, HAM_SUCCESS, HAM_KEY_NOT_FOUND,
      HAM_PREFIX_REQUEST_FULLKEY]
  · intro hext hpe hpr hens hmiss hbr halloc
    simp only [lhsBlobid] at hmiss hbr
    simp [db_compare_keys, lhsStep, loadExtKey, lhsBlobid, hext, hpe, hpr,
      hens, hmiss, hbr, halloc, HAM_SUCCESS, HAM_KEY_NOT_FOUND,
      HAM_PREFIX_REQUEST_FULLKEY, HAM_OUT_OF_MEMORY]
  · intro hext hpe hpr hens hle hlb hmiss hbr
    simp only [rhsBlobid] at hmiss hbr
    simp [db_compare_keys, rhsStep, loadExtKey, rhsBlobid, hext, hpe, hpr,
      hens, hle, hlb, hmiss, hbr, HAM_SUCCESS, HAM_KEY_NOT_FOUND,
      HAM_PREFIX_REQUEST_FULLKEY]
  · intro hext hpe hpr hens hle hlb hmiss hbr halloc
    simp only [rhsBlobid] at hmiss hbr
    simp [db_compare_keys, rhsStep, loadExtKey, rhsBlobid, hext, hpe, hpr,
      hens, hle, hlb, hmiss, hbr, halloc, HAM_SUCCESS, HAM_KEY_NOT_FOUND,
      HAM_PREFIX_REQUEST_FULLKEY, HAM_OUT_OF_MEMORY]

/-- Prefix-compare failure scenario: the user prefix function raises
`IO_ERROR`. -/
def cmpEnvPreErr : CmpEnv :=
  { cmpEnvIoErr with
      lhsFlags := 0
      rhsFlags := KEY_IS_EXTENDED
      rhs := cmpEnvIoErr.lhs
      rhsLen := 64
      prefoo := some (0, HAM_IO_ERROR) }

/-- Cache-creation failure scenario: no extkey cache yet and
`extkey_cache_new` fails. -/
def cmpEnvNoCache : CmpEnv :=
  { cmpEnvIoErr with
      lhsFlags := 0
      rhsFlags := KEY_IS_EXTENDED
      rhs := cmpEnvIoErr.lhs
      rhsLen := 64
      cache0 := none
      cacheNewOk := false }

/-- Left-assembly allocation failure scenario: the blob read succeeds but
`ham_mem_alloc` for the assembly buffer fails. -/
def cmpEnvAllocFail : CmpEnv :=
  { cmpEnvIoErr with
      blobRead := fun _ => (0, List.replicate 56 7)
      alloc1Ok := false }

/-- Right-side blob-read failure scenario: inline left key, extended right
key whose tail blob read fails. -/
def cmpEnvRhsIoErr : CmpEnv :=
  { cmpEnvIoErr with
      lhsFlags := 0
      rhsFlags := KEY_IS_EXTENDED
      rhs := cmpEnvIoErr.lhs
      rhsLen := 64 }

/-- Right-assembly allocation failure scenario. -/
def cmpEnvRhsAllocFail : CmpEnv :=
  { cmpEnvRhsIoErr with
      blobRead := fun _ => (0, List.replicate 56 7)
      alloc2Ok := false }

/-- Witness for C2: the six failure scenarios at concrete environments. -/
theorem db_compare_keys_error_paths_witness :
    ((db_compare_keys cmpEnvPreErr).ret = 0 ∧
      (db_compare_keys cmpEnvPreErr).err = HAM_IO_ERROR) ∧
    ((db_compare_keys cmpEnvNoCache).ret = HAM_OUT_OF_MEMORY ∧
      (db_compare_keys cmpEnvNoCache).err = HAM_OUT_OF_MEMORY) ∧
    ((db_compare_keys cmpEnvIoErr).ret = HAM_PREFIX_REQUEST_FULLKEY ∧
      (db_compare_keys cmpEnvIoErr).err =
        (cmpEnvIoErr.blobRead (lhsBlobid cmpEnvIoErr)).1) ∧
    ((db_compare_keys cmpEnvAllocFail).ret = HAM_PREFIX_REQUEST_FULLKEY ∧
      (db_compare_keys cmpEnvAllocFail).err = HAM_OUT_OF_MEMORY) ∧
    ((db_compare_keys cmpEnvRhsIoErr).ret = HAM_PREFIX_REQUEST_FULLKEY ∧
      (db_compare_keys cmpEnvRhsIoErr).err =
        (cmpEnvRhsIoErr.blobRead (rhsBlobid cmpEnvRhsIoErr)).1) ∧
    ((db_compare_keys cmpEnvRhsAllocFail).ret =
        HAM_PREFIX_REQUEST_FULLKEY ∧
      (db_compare_keys cmpEnvRhsAllocFail).err = HAM_OUT_OF_MEMORY) :=
  ⟨(db_compare_keys_error_paths cmpEnvPreErr).1 0 HAM_IO_ERROR (by decide)
      rfl (by decide),
   (db_compare_keys_error_paths cmpEnvNoCache).2.1 (by decide) (by decide)
      (by decide) rfl (by decide),
   (db_compare_keys_error_paths cmpEnvIoErr).2.2.1 (by decide) (by decide)
      (by decide) (by decide) (by decide) (by decide),
   (db_compare_keys_error_paths cmpEnvAllocFail).2.2.2.1 (by decide)
      (by decide) (by decide) (by decide) (by decide) (by decide)
      (by decide),
   (db_compare_keys_error_paths cmpEnvRhsIoErr).2.2.2.2.1 (by decide)
      (by decide) (by decide) (by decide) (by decide) (by decide)
      (by decide) (by decide),
   (db_compare_keys_error_paths cmpEnvRhsAllocFail).2.2.2.2.2 (by decide)
      (by decide) (by decide) (by decide) (by decide) (by decide)
      (by decide) (by decide) (by decide)⟩

/-- A concrete on-disk environment where the left key (stated length 64,
keysize 16) is assembled from its 56-byte tail blob. -/
def cmpEnvAssembly : CmpEnv :=
  { inMemory := false
    keysize := 16
    pageUsed := 0
    cachesize := 1000000
    cache0 := some extkey_cache_new
    cacheNewOk := true
    prefoo := none
    foo := fun _ _ _ _ => 0
    blobRead := fun _ => (0, List.replicate 56 7)
    alloc1Ok := true
    alloc2Ok := true
    insAlloc1Ok := true
    insAlloc2Ok := true
    lhsFlags := KEY_IS_EXTENDED
    lhs := [1, 2, 3, 4, 5, 6, 7, 8, 42, 0, 0, 0, 0, 0, 0, 0]
    lhsLen := 64
    rhsFlags := 0
    rhs := [9, 9]
    rhsLen := 2 }

/-- C8 counterexample: for a key of full length 64 with keysize 16 and a
56-byte tail, the assembly buffer is allocated with
`record.size + keysize` = 72 bytes, not 64; the assembled content
`inline_prefix ++ tail_bytes` written into it has length 64. -/
theorem db_compare_keys_alloc_size_cex :
    (db_compare_keys cmpEnvAssembly).lhsAllocSize = some 72 ∧
    ((db_compare_keys cmpEnvAssembly).lhsBuf.getD []).length = 64 ∧
    (72 : Nat) ≠ cmpEnvAssembly.lhsLen := by
  decide

/-- C8 amended: whenever `db_compare_keys` materializes an extended key
whose tail is not in the extkey cache, the freshly allocated assembly
buffer has `record.size + keysize` bytes — which is the key's full stated
length plus 8 when the blob holds exactly the tail
(`record.size = length - (keysize - 8)`) — while the assembled content
`inline_prefix ++ tail_bytes` it holds has length exactly the full stated
length of the key. -/
theorem db_compare_keys_assembly_spec (env : CmpEnv)
    (hext : env.lhsFlags &&& KEY_IS_EXTENDED ≠ 0)
    (hpe : prefooErr env = 0)
    (hpr : prefooRet env = HAM_PREFIX_REQUEST_FULLKEY)
    (hens : ¬(env.inMemory = false ∧ cacheEnsured env = none))
    (hmiss : fetchFromCache env.inMemory (cacheEnsured env)
      (lhsBlobid env) = (HAM_KEY_NOT_FOUND, none))
    (hbr : (env.blobRead (lhsBlobid env)).1 = 0)
    (halloc : env.alloc1Ok = true) :
    (db_compare_keys env).lhsAllocSize =
      some ((env.blobRead (lhsBlobid env)).2.length + env.keysize) ∧
    (db_compare_keys env).lhsBuf =
      some (env.lhs.take (env.keysize - 8) ++
        (env.blobRead (lhsBlobid env)).2) ∧
    ((env.blobRead (lhsBlobid env)).2.length =
        env.lhsLen - (env.keysize - 8) →
      8 ≤ env.keysize → env.keysize - 8 ≤ env.lhsLen →
      env.keysize - 8 ≤ env.lhs.length →
      ((db_compare_keys env).lhsBuf.getD []).length = env.lhsLen ∧
      (db_compare_keys env).lhsAllocSize = some (env.lhsLen + 8)) := by
  have hL : lhsStep env =
      { early := none, bail := false, err := 0
        buf := some (env.lhs.take (env.keysize - 8) ++
          (env.blobRead (lhsBlobid env)).2)
        allocSize := some ((env.blobRead (lhsBlobid env)).2.length +
          env.keysize)
        allocFlag := true
        cache :=
          if env.inMemory = false then
            match cacheEnsured env with
            | some cc =>
              some (extkey_cache_insert env.pageUsed env.cachesize
                env.insAlloc1Ok cc (lhsBlobid env) env.lhsLen
                (env.lhs.take (env.keysize - 8) ++
                  (env.blobRead (lhsBlobid env)).2)).2
            | none => cacheEnsured env
          else cacheEnsured env } := by
    simp only [lhsBlobid] at hmiss hbr ⊢
    simp [lhsStep, loadExtKey, hext, hmiss, hbr, halloc, HAM_SUCCESS,
      HAM_KEY_NOT_FOUND]
  have hfields :
      (db_compare_keys env).lhsAllocSize = (lhsStep env).allocSize ∧
      (db_compare_keys env).lhsBuf = (lhsStep env).buf := by
    unfold db_compare_keys
    rw [if_neg (by intro hc; exact hext hc.1), if_neg (by simp [hpe]),
      if_neg (by simp [hpr]), if_neg hens]
    rw [show (lhsStep env).early = none by rw [hL]]
    simp only [show (lhsStep env).bail = false by rw [hL],
      Bool.false_eq_true, if_false]
    cases hre : (rhsStep env).early with
    | some st => constructor <;> trivial
    | none =>
      by_cases hrb : (rhsStep env).bail = true
      · simp only [hrb, if_true]
        constructor <;> trivial
      · simp only [Bool.not_eq_true] at hrb
        simp only [hrb, Bool.false_eq_true, if_false]
        constructor <;> trivial
  refine ⟨?_, ?_, ?_⟩
  · rw [hfields.1, hL]
  · rw [hfields.2, hL]
  · intro htail hk8 hkl hsl
    constructor
    · rw [hfields.2, hL]
      simp only [Option.getD_some, List.length_append, List.length_take]
      omega
    · rw [hfields.1, hL]
      simp only [Option.some.injEq]
      omega

/-- Witness for C8 at the concrete assembly environment. -/
theorem db_compare_keys_assembly_spec_witness :
    (db_compare_keys cmpEnvAssembly).lhsAllocSize =
      some ((cmpEnvAssembly.blobRead (lhsBlobid cmpEnvAssembly)).2.length +
        cmpEnvAssembly.keysize) ∧
    (db_compare_keys cmpEnvAssembly).lhsBuf =
      some (cmpEnvAssembly.lhs.take (cmpEnvAssembly.keysize - 8) ++
        (cmpEnvAssembly.blobRead (lhsBlobid cmpEnvAssembly)).2) ∧
    (((db_compare_keys cmpEnvAssembly).lhsBuf.getD []).length =
        cmpEnvAssembly.lhsLen ∧
      (db_compare_keys cmpEnvAssembly).lhsAllocSize =
        some (cmpEnvAssembly.lhsLen + 8)) :=
  ⟨(db_compare_keys_assembly_spec cmpEnvAssembly (by decide) (by decide)
      (by decide) (by decide) (by decide) (by decide) (by decide)).1,
   (db_compare_keys_assembly_spec cmpEnvAssembly (by decide) (by decide)
      (by decide) (by decide) (by decide) (by decide) (by decide)).2.1,
   (db_compare_keys_assembly_spec cmpEnvAssembly (by decide) (by decide)
      (by decide) (by decide) (by decide) (by decide) (by decide)).2.2
      (by decide) (by decide) (by decide) (by decide)⟩

end Upscaledb







